import Mathlib

/-!
Shallow embedding of `xfields/platforms/py_opencl.py`: the PyOpenCL platform
abstraction layer (kernel descriptors, kernel handles, memory transfer,
FFT planning) of the xfields repository.

Modelling conventions:
* Python `assert` failures and raised exceptions are modelled as `Except Err`
  results; each distinct failure site gets its own `Err` constructor, named
  after the error taxonomy used in the specification (`ArityError`,
  `TypeMismatchError`, `DescriptorMismatch`, `UnsupportedShape`) or after the
  Python exception class that the interpreter would raise (`KeyError`,
  `IndexError`, `ValueError`, `AttributeError`).
* Numeric scalar values are modelled as `Int`; the dtype coercion `tt[1](vv)`
  performed for scalar kernel arguments is modelled by `Dtype.coerce`
  (two's-complement wraparound for the fixed-width integer dtypes, identity
  for `float64`, which is exact on the integer-valued scalars modelled here).
* A PyOpenCL context is identified by a number (`Nat`); what matters to the
  source code is only context identity (equality comparisons).
* External library objects (compiled `pyopencl` kernels, command queues,
  device arrays) are modelled by records carrying exactly the attributes the
  source code reads: `num_args` and `context` for a compiled kernel,
  `context` for a queue, `context`/`shape`/`dtype`/`base_data`/`offset` for
  a device array.
-/

namespace XfPyOpenCL

/-- Numeric element types appearing in kernel descriptors (`np.int32` etc.). -/
inductive Dtype
  | int32
  | int64
  | uint32
  | float64
deriving DecidableEq, Repr

/-- The numeric cast `tt[1](vv)` applied to a scalar kernel argument: the
fixed-width integer dtypes wrap around in two's complement; `float64` is the
identity on the integer-valued scalars modelled here. -/
def Dtype.coerce : Dtype → Int → Int
  | .int32, v => (v + 2 ^ 31) % 2 ^ 32 - 2 ^ 31
  | .int64, v => (v + 2 ^ 63) % 2 ^ 64 - 2 ^ 63
  | .uint32, v => v % 2 ^ 32
  | .float64, v => v

/-- One entry `(kind, element-type)` of a descriptor's argument-type list.
The kind is a string (`"scalar"` or `"array"` in well-formed descriptors),
exactly as in the Python descriptors; `XfPyopenclKernel.__call__` compares it
against those two literals and raises `ValueError` on anything else. -/
structure ArgType where
  kind : String
  dtype : Dtype
deriving DecidableEq, Repr

/-- A host-resident numpy array: shape, element type, and element data. -/
structure NpArray where
  shape : List Nat
  dtype : Dtype
  data : List Int
deriving DecidableEq, Repr

/-- A device-resident `pyopencl.array.Array`, carrying the attributes the
source reads: its context, shape, dtype, underlying buffer `base_data` and
the view's `offset` into it. -/
structure DevArray where
  context : Nat
  shape : List Nat
  dtype : Dtype
  base_data : List Int
  offset : Nat
deriving DecidableEq, Repr

/-- A value supplied as a keyword argument at a kernel call site: a numeric
scalar, a host numpy array, or a device array. -/
inductive Value
  | scalar (v : Int)
  | hostArray (a : NpArray)
  | devArray (a : DevArray)
deriving DecidableEq, Repr

/-- A PyOpenCL command queue; the source only reads its `context`. -/
structure CommandQueue where
  context : Nat
deriving DecidableEq, Repr

/-- A compiled `pyopencl` kernel object; the source reads its `num_args`
(declared parameter count) and its `context`. -/
structure PyKernel where
  context : Nat
  num_args : Nat
deriving DecidableEq, Repr

/-- Failure outcomes of the platform operations. Constructors are named after
the specification's error taxonomy where it names the failure, and after the
Python exception class the interpreter raises otherwise. -/
inductive Err
  | ArityError
  | TypeMismatchError
  | DescriptorMismatch
  | UnsupportedShape
  | KeyError (name : String)
  | IndexError
  | ValueError
  | AttributeError (name : String)
deriving DecidableEq, Repr

/-- A marshalled kernel argument as it is appended to `arg_list` in
`XfPyopenclKernel.__call__`: either the dtype-cast scalar `tt[1](vv)` or the
sub-buffer `vv.base_data[vv.offset:]` of a device array. -/
inductive DevArg
  | scalarArg (dtype : Dtype) (v : Int)
  | bufferArg (buf : List Int)
deriving DecidableEq, Repr

/-- The device launch performed at the end of `XfPyopenclKernel.__call__`:
`self.pyopencl_kernel(self.command_queue, (kwargs[self.num_threads_from_arg],),
None, *arg_list)`, plus whether the resulting event was waited on. -/
structure LaunchEvent where
  queue : CommandQueue
  global_size : Value
  args : List DevArg
  waited : Bool
deriving DecidableEq, Repr

/-- The `XfPyopenclKernel` handle: a compiled kernel bound to its descriptor
(argument names, argument types, launch-width argument name) and to the
owning platform's command queue. -/
structure XfPyopenclKernel where
  pyopencl_kernel : PyKernel
  arg_names : List String
  arg_types : List ArgType
  num_threads_from_arg : String
  command_queue : CommandQueue
  wait_on_call : Bool
deriving DecidableEq, Repr

/-- The `num_args` property of `XfPyopenclKernel`: `len(self.arg_names)`. -/
def XfPyopenclKernel.num_args (k : XfPyopenclKernel) : Nat :=
  k.arg_names.length

/-- `XfPyopenclKernel.__init__`: asserts
`len(arg_names) == len(arg_types) == pyopencl_kernel.num_args` and
`num_threads_from_arg in arg_names` (both failures are the specification's
`DescriptorMismatch`), then stores the fields. -/
def XfPyopenclKernel.make (pyopencl_kernel : PyKernel) (arg_names : List String)
    (arg_types : List ArgType) (num_threads_from_arg : String)
    (command_queue : CommandQueue) (wait_on_call : Bool) :
    Except Err XfPyopenclKernel :=
  if arg_names.length = arg_types.length ∧ arg_types.length = pyopencl_kernel.num_args then
    if num_threads_from_arg ∈ arg_names then
      .ok ⟨pyopencl_kernel, arg_names, arg_types, num_threads_from_arg,
           command_queue, wait_on_call⟩
    else .error .DescriptorMismatch
  else .error .DescriptorMismatch

/-- The body of the argument-marshalling loop of `XfPyopenclKernel.__call__`
for one declared argument of type `tt` with supplied value `vv`: for kind
`"scalar"` assert `np.isscalar(vv)` and produce the cast `tt[1](vv)`; for
kind `"array"` assert `isinstance(vv, cla.Array)` and
`vv.context == self.pyopencl_kernel.context` and produce the sub-buffer
`vv.base_data[vv.offset:]`; any other kind raises `ValueError`. The
assertion failures are the specification's `TypeMismatchError`. -/
def marshalOne (ctx : Nat) (tt : ArgType) (vv : Value) : Except Err DevArg :=
  if tt.kind = "scalar" then
    match vv with
    | .scalar v => .ok (.scalarArg tt.dtype (tt.dtype.coerce v))
    | _ => .error .TypeMismatchError
  else if tt.kind = "array" then
    match vv with
    | .devArray a =>
      if a.context = ctx then .ok (.bufferArg (a.base_data.drop a.offset))
      else .error .TypeMismatchError
    | _ => .error .TypeMismatchError
  else .error .ValueError

/-- The argument-marshalling loop of `XfPyopenclKernel.__call__`:
`for nn, tt in zip(self.arg_names, self.arg_types)` — look up `kwargs[nn]`
(a missing key is Python's `KeyError`), marshal the value with `marshalOne`,
and append the result to `arg_list`; the first failure aborts the loop. -/
def marshalArgs (ctx : Nat) : List (String × ArgType) → List (String × Value) →
    Except Err (List DevArg)
  | [], _ => .ok []
  | (nn, tt) :: rest, kwargs =>
    match kwargs.lookup nn with
    | none => .error (.KeyError nn)
    | some vv => do
      let x ← marshalOne ctx tt vv
      let tail ← marshalArgs ctx rest kwargs
      .ok (x :: tail)

/-- `XfPyopenclKernel.__call__(**kwargs)`: asserts
`len(kwargs.keys()) == self.num_args` (the specification's `ArityError`),
marshals the arguments in declaration order, then launches the kernel with
global work size `(kwargs[self.num_threads_from_arg],)` and waits on the
event when `wait_on_call` is set. Keyword arguments are modelled as an
association list with distinct keys (a Python `dict`). -/
def XfPyopenclKernel.call (ker : XfPyopenclKernel) (kwargs : List (String × Value)) :
    Except Err LaunchEvent :=
  if kwargs.length = ker.num_args then do
    let args ← marshalArgs ker.pyopencl_kernel.context
      (ker.arg_names.zip ker.arg_types) kwargs
    match kwargs.lookup ker.num_threads_from_arg with
    | none => .error (.KeyError ker.num_threads_from_arg)
    | some nt => .ok ⟨ker.command_queue, nt, args, ker.wait_on_call⟩
  else .error .ArityError

/-- Specification-side predicate (decidable): the supplied value `vv` conforms
to the declared argument type `tt` of a kernel whose compiled context is
`ctx` — a scalar for kind `"scalar"`, a device array of the same context for
kind `"array"`. -/
def matchesDecl (ctx : Nat) (tt : ArgType) (vv : Value) : Bool :=
  match vv with
  | .scalar _ => tt.kind = "scalar"
  | .hostArray _ => false
  | .devArray a => tt.kind = "array" ∧ a.context = ctx

/-- Specification-side predicate (decidable): the keyword arguments supply a
value for the declared argument `p` and that value conforms to its declared
type. -/
def conforms (ctx : Nat) (kwargs : List (String × Value)) (p : String × ArgType) :
    Bool :=
  match kwargs.lookup p.1 with
  | none => false
  | some vv => matchesDecl ctx p.2 vv

/-- The kernel mapping `MinimalDotDict`: a `dict` subclass whose
`__getattr__` is `self.get(attr)`. Modelled as an association list with
distinct keys; attribute access is `lookup`, which returns `none` (Python
`None`) for absent keys instead of raising. -/
def MinimalDotDict := List (String × XfPyopenclKernel)

/-- `MinimalDotDict.__getattr__(self, attr)`: `return self.get(attr)`. -/
def MinimalDotDict.getattr (d : MinimalDotDict) (attr : String) :
    Option XfPyopenclKernel :=
  d.lookup attr

/-- The `XfPyopenclPlatform` state read by the operations modelled here: its
PyOpenCL context, its command queue (asserted at construction to be bound to
that context), and its kernel mapping `_kernels`. -/
structure XfPyopenclPlatform where
  pyopencl_context : Nat
  command_queue : CommandQueue
  kernels : MinimalDotDict

/-- `XfPyopenclPlatform.nparray_to_platform_mem`: delegates to
`cla.to_device(self.command_queue, arr)`. Modelled from the pyopencl API
contract of `to_device`: an exact element-wise copy of the host array into a
fresh device buffer (offset 0) bound to the queue's context, preserving shape
and element type. -/
def XfPyopenclPlatform.nparray_to_platform_mem (p : XfPyopenclPlatform)
    (arr : NpArray) : DevArray :=
  ⟨p.command_queue.context, arr.shape, arr.dtype, arr.data, 0⟩

/-- `XfPyopenclPlatform.nparray_from_platform_mem`: delegates to
`dev_arr.get()`. Modelled from the pyopencl API contract of `Array.get`: an
exact element-wise copy back to a host array of the same shape and element
type, reading the buffer from the view's offset. -/
def XfPyopenclPlatform.nparray_from_platform_mem (_p : XfPyopenclPlatform)
    (dev_arr : DevArray) : NpArray :=
  ⟨dev_arr.shape, dev_arr.dtype, dev_arr.base_data.drop dev_arr.offset⟩

/-- Python `max` over a list of integers: `ValueError` on an empty sequence,
otherwise the maximum element. -/
def pyMax : List Int → Except Err Int
  | [] => .error .ValueError
  | x :: xs => .ok (xs.foldl max x)

/-- Python tuple indexing `shape[ii]` with an `Int` index: nonnegative
indices below the length, negative indices counted from the end, `IndexError`
otherwise. -/
def pyTupleIndex (shape : List Nat) (i : Int) : Except Err Nat :=
  if h : 0 ≤ i ∧ i < (shape.length : Int) then
    .ok (shape.get ⟨i.toNat, by
      have := h.2
      omega⟩)
  else if h2 : i < 0 ∧ 0 ≤ i + (shape.length : Int) then
    .ok (shape.get ⟨(i + (shape.length : Int)).toNat, by
      have := h2.1
      omega⟩)
  else .error .IndexError

/-- Exact predicate for "the length is a power of two": some exponent k with
2 ^ k = n exists (k ≤ n always suffices). This is the requirement stated by
the assertion message in `XfPyopenclFFT.__init__` ("all dimensions apart
from the last to be powers of two"). The source implements the test in
floating point — `frac_part, _ = np.modf(np.log(nn)/np.log(2))` followed by
`np.isclose(frac_part, 0)`, absolute tolerance 1e-8 — which deviates from
this exact predicate on near-powers of two from 2 ^ 28 + 1 upward: there
the fractional part of the base-2 logarithm (about 5.4e-9) is within the
tolerance, so the float test accepts a length that is not a power of two;
see the claim C6 theorem. -/
def isPow2 (n : Nat) : Bool :=
  (List.range (n + 1)).any (fun k => 2 ^ k == n)

/-- The dimension loop of `XfPyopenclFFT.__init__`:
`for ii in axes[:-1]: nn = data.shape[ii]; assert <nn is a power of two>`.
The assertion failure is the specification's `UnsupportedShape`; an
out-of-range index raises Python's `IndexError` at `data.shape[ii]`. The
power-of-two test is embedded by the exact predicate `isPow2`, which is the
assertion's stated intent; the source's float-tolerance test deviates from
it on large near-powers of two (see `isPow2` and the claim C6 theorem). -/
def checkAxes (shape : List Nat) : List Int → Except Err Unit
  | [] => .ok ()
  | ii :: rest => do
    let nn ← pyTupleIndex shape ii
    if isPow2 nn then checkAxes shape rest
    else .error .UnsupportedShape

/-- The FFT plan object built by `XfPyopenclFFT.__init__` after its checks
pass; the external `gpyfft.fft.FFT` plan itself is opaque, so the record
keeps what the source stores: the axes, the wait flag, and (for the plan's
shape binding) the shape of the array it was planned for. -/
structure XfPyopenclFFT where
  shape : List Nat
  axes : List Int
  wait_on_call : Bool
deriving DecidableEq, Repr

/-- `XfPyopenclFFT.__init__(platform, data, axes, wait_on_call)`: asserts
`len(data.shape) > max(axes)` (the specification's `UnsupportedShape`; Python
`max` raises `ValueError` on empty `axes`), then checks every dimension
selected by `axes[:-1]` is a power of two, then builds the external gpyfft
plan for `data` and `axes`. -/
def fftInit (data_shape : List Nat) (axes : List Int) (wait_on_call : Bool) :
    Except Err XfPyopenclFFT := do
  let m ← pyMax axes
  if (data_shape.length : Int) > m then do
    checkAxes data_shape axes.dropLast
    .ok ⟨data_shape, axes, wait_on_call⟩
  else .error .UnsupportedShape

/-- `XfPyopenclPlatform.plan_FFT(data, axes, wait_on_call)`: returns
`XfPyopenclFFT(self, data, axes, wait_on_call)`. -/
def XfPyopenclPlatform.plan_FFT (_p : XfPyopenclPlatform) (data : DevArray)
    (axes : List Int) (wait_on_call : Bool) : Except Err XfPyopenclFFT :=
  fftInit data.shape axes wait_on_call

/-- A compiled PyOpenCL program: the mapping from kernel name to compiled
kernel object that `getattr(prg, nn)` reads; a name the program does not
define raises Python's `AttributeError`. -/
structure Program where
  kernels : List (String × PyKernel)
deriving Repr

/-- One kernel description: `{args: ((kind, dtype), name) pairs,
num_threads_from_arg: name}`. -/
structure KernelDescription where
  args : List (ArgType × String)
  num_threads_from_arg : String
deriving DecidableEq, Repr

/-- The per-kernel registration step of `XfPyopenclPlatform.add_kernels`
for one name `nn` of `kernel_descriptions` (after the program has been
compiled): `kk = getattr(prg, nn)` (`AttributeError` when the program has no
such kernel), `aa_types, aa_names = zip(*aa)` (Python raises `ValueError`
unpacking `zip(*aa)` when the argument list is empty), then construction of
the `XfPyopenclKernel` handle. -/
def addKernelsOne (queue : CommandQueue) (prg : Program) (nn : String)
    (kd : KernelDescription) : Except Err XfPyopenclKernel :=
  match prg.kernels.lookup nn with
  | none => .error (.AttributeError nn)
  | some kk =>
    match kd.args with
    | [] => .error .ValueError
    | _ =>
      XfPyopenclKernel.make kk (kd.args.map Prod.snd) (kd.args.map Prod.fst)
        kd.num_threads_from_arg queue true

/-- The registration loop of `XfPyopenclPlatform.add_kernels`:
`for nn in kernel_descriptions.keys(): ... self.kernels[nn] = XfPyopenclKernel(...)`.
A raised exception aborts the loop; on success the platform's kernel mapping
is extended with one handle per description. -/
def addKernels (queue : CommandQueue) (prg : Program) :
    List (String × KernelDescription) → Except Err (List (String × XfPyopenclKernel))
  | [] => .ok []
  | (nn, kd) :: rest => do
    let ker ← addKernelsOne queue prg nn kd
    let tail ← addKernels queue prg rest
    .ok ((nn, ker) :: tail)

/-! Concrete fixtures used to instantiate the theorems below on explicit
inputs: a two-argument kernel `my_mul`-style handle and small arrays. -/

/-- A compiled kernel object with two declared parameters in context 0. -/
def exPk : PyKernel := ⟨0, 2⟩

/-- A command queue bound to context 0. -/
def exQueue : CommandQueue := ⟨0⟩

/-- Declared argument types of the example kernel: a scalar `int32` and a
`float64` array. -/
def exTypes : List ArgType := [⟨"scalar", .int32⟩, ⟨"array", .float64⟩]

/-- The example kernel handle: arguments `n` (scalar) and `x` (array), launch
width taken from `n`. -/
def exKer : XfPyopenclKernel := ⟨exPk, ["n", "x"], exTypes, "n", exQueue, true⟩

/-- A device array resident in context 0. -/
def exArr : DevArray := ⟨0, [3], .float64, [1, 2, 3], 0⟩

/-- A device array resident in context 1 (a different platform's context). -/
def exArrOther : DevArray := ⟨1, [3], .float64, [1, 2, 3], 0⟩

/-- A two-argument kernel handle whose arguments are both scalars, used for
the arity counterexample: arguments `a` and `b`, launch width from `a`. -/
def exKerAB : XfPyopenclKernel :=
  ⟨exPk, ["a", "b"], [⟨"scalar", .int32⟩, ⟨"scalar", .int32⟩], "a", exQueue, true⟩

/-- A compiled kernel object with three declared parameters in context 0. -/
def exPk3 : PyKernel := ⟨0, 3⟩

/-- A kernel description declaring a single argument, so its argument count
disagrees with `exPk3`'s three compiled parameters. -/
def exBadKd : KernelDescription := ⟨[(⟨"scalar", .int32⟩, "n")], "n"⟩

/-- A compiled program defining one kernel, `bad`, with three parameters. -/
def exPrg : Program := ⟨[("bad", exPk3)]⟩

/-- A platform on context 0 with no registered kernels. -/
def exPlatform : XfPyopenclPlatform := ⟨0, exQueue, []⟩

/-! Helper lemmas. -/

theorem bind_ok_reduce {α β : Type} (a : α) (f : α → Except Err β) :
    (Except.ok a >>= f) = f a := rfl

theorem bind_err_reduce {α β : Type} (e : Err) (f : α → Except Err β) :
    ((Except.error e : Except Err α) >>= f) = Except.error e := rfl

theorem lookup_isSome_of_mem_keys {α β : Type} [BEq α] [LawfulBEq α]
    {l : List (α × β)} {a : α} (h : a ∈ l.map Prod.fst) :
    ∃ v, l.lookup a = some v := by
  induction l with
  | nil => simp at h
  | cons p rest ih =>
    obtain ⟨k, b⟩ := p
    by_cases hk : a = k
    · exact ⟨b, by simp [List.lookup_cons, hk]⟩
    · have hmem : a ∈ rest.map Prod.fst := by
        rcases List.mem_cons.1 h with h1 | h1
        · exact absurd h1 hk
        · exact h1
      obtain ⟨v, hv⟩ := ih hmem
      refine ⟨v, ?_⟩
      have hbeq : (a == k) = false := beq_false_of_ne hk
      simp [List.lookup_cons, hbeq, hv]

theorem lookup_eq_none_of_not_mem_keys {α β : Type} [BEq α] [LawfulBEq α]
    {l : List (α × β)} {a : α} (h : a ∉ l.map Prod.fst) :
    l.lookup a = none := by
  induction l with
  | nil => rfl
  | cons p rest ih =>
    obtain ⟨k, b⟩ := p
    have hk : a ≠ k := fun he => h (by simp [he])
    have hbeq : (a == k) = false := beq_false_of_ne hk
    have hrest : a ∉ rest.map Prod.fst := fun hm => h (by simp [hm])
    simp [List.lookup_cons, hbeq, ih hrest]

theorem make_ok_elim {pk : PyKernel} {names : List String} {types : List ArgType}
    {nt : String} {q : CommandQueue} {w : Bool} {ker : XfPyopenclKernel}
    (h : XfPyopenclKernel.make pk names types nt q w = .ok ker) :
    names.length = types.length ∧ types.length = pk.num_args ∧ nt ∈ names ∧
      ker = ⟨pk, names, types, nt, q, w⟩ := by
  unfold XfPyopenclKernel.make at h
  split at h
  next hlen =>
    split at h
    next hmem =>
      injection h with h
      exact ⟨hlen.1, hlen.2, hmem, h.symm⟩
    next => simp at h
  next => simp at h

theorem make_err_of_invalid (pk : PyKernel) (names : List String)
    (types : List ArgType) (nt : String) (q : CommandQueue) (w : Bool)
    (h : ¬(names.length = types.length ∧ types.length = pk.num_args ∧ nt ∈ names)) :
    XfPyopenclKernel.make pk names types nt q w = .error .DescriptorMismatch := by
  unfold XfPyopenclKernel.make
  split
  next hlen =>
    split
    next hmem => exact absurd ⟨hlen.1, hlen.2, hmem⟩ h
    next => rfl
  next => rfl

theorem marshalOne_scalar (ctx : Nat) {tt : ArgType} (v : Int)
    (h : tt.kind = "scalar") :
    marshalOne ctx tt (.scalar v) = .ok (.scalarArg tt.dtype (tt.dtype.coerce v)) := by
  simp [marshalOne, h]

theorem marshalOne_ok_of_matches {ctx : Nat} {tt : ArgType} {vv : Value}
    (h : matchesDecl ctx tt vv = true) :
    ∃ x, marshalOne ctx tt vv = .ok x := by
  cases vv with
  | scalar v =>
    have hk : tt.kind = "scalar" := by simpa [matchesDecl] using h
    exact ⟨_, marshalOne_scalar ctx v hk⟩
  | hostArray a => simp [matchesDecl] at h
  | devArray a =>
    have hk : tt.kind = "array" ∧ a.context = ctx := by simpa [matchesDecl] using h
    refine ⟨.bufferArg (a.base_data.drop a.offset), ?_⟩
    simp [marshalOne, hk.1, hk.2]

theorem marshalOne_err_of_not_matches {ctx : Nat} {tt : ArgType} {vv : Value}
    (hkind : tt.kind = "scalar" ∨ tt.kind = "array")
    (h : matchesDecl ctx tt vv = false) :
    marshalOne ctx tt vv = .error .TypeMismatchError := by
  cases vv with
  | scalar v =>
    have hk : ¬tt.kind = "scalar" := by simpa [matchesDecl] using h
    rcases hkind with hs | ha
    · exact absurd hs hk
    · simp [marshalOne, ha]
  | hostArray a =>
    rcases hkind with hs | ha
    · simp [marshalOne, hs]
    · have hk : ¬tt.kind = "scalar" := by simp [ha]
      simp [marshalOne, hk, ha]
  | devArray a =>
    have hk : ¬(tt.kind = "array" ∧ a.context = ctx) := by
      simpa [matchesDecl] using h
    rcases hkind with hs | ha
    · simp [marshalOne, hs]
    · have hctx : ¬a.context = ctx := fun hc => hk ⟨ha, hc⟩
      have hns : ¬tt.kind = "scalar" := by simp [ha]
      simp [marshalOne, hns, ha, hctx]

theorem marshalOne_err_cases {ctx : Nat} {tt : ArgType} {vv : Value} {e : Err}
    (h : marshalOne ctx tt vv = .error e) :
    e = .TypeMismatchError ∨
      (e = .ValueError ∧ ¬(tt.kind = "scalar" ∨ tt.kind = "array")) := by
  by_cases hs : tt.kind = "scalar"
  · cases vv with
    | scalar v => rw [marshalOne_scalar ctx v hs] at h; simp at h
    | hostArray a => simp [marshalOne, hs] at h; exact Or.inl h.symm
    | devArray a => simp [marshalOne, hs] at h; exact Or.inl h.symm
  · by_cases ha : tt.kind = "array"
    · cases vv with
      | scalar v => simp [marshalOne, hs, ha] at h; exact Or.inl h.symm
      | hostArray a => simp [marshalOne, hs, ha] at h; exact Or.inl h.symm
      | devArray a =>
        by_cases hc : a.context = ctx
        · simp [marshalOne, hs, ha, hc] at h
        · simp [marshalOne, hs, ha, hc] at h; exact Or.inl h.symm
    · cases vv with
      | scalar v => simp [marshalOne, hs, ha] at h; exact Or.inr ⟨h.symm, by simp [hs, ha]⟩
      | hostArray a => simp [marshalOne, hs, ha] at h; exact Or.inr ⟨h.symm, by simp [hs, ha]⟩
      | devArray a => simp [marshalOne, hs, ha] at h; exact Or.inr ⟨h.symm, by simp [hs, ha]⟩

theorem marshalOne_ok_matches {ctx : Nat} {tt : ArgType} {vv : Value} {x : DevArg}
    (h : marshalOne ctx tt vv = .ok x) :
    matchesDecl ctx tt vv = true := by
  by_cases hs : tt.kind = "scalar"
  · cases vv with
    | scalar v => simp [matchesDecl, hs]
    | hostArray a => simp [marshalOne, hs] at h
    | devArray a => simp [marshalOne, hs] at h
  · by_cases ha : tt.kind = "array"
    · cases vv with
      | scalar v => simp [marshalOne, hs, ha] at h
      | hostArray a => simp [marshalOne, hs, ha] at h
      | devArray a =>
        by_cases hc : a.context = ctx
        · simp [matchesDecl, ha, hc]
        · simp [marshalOne, hs, ha, hc] at h
    · cases vv <;> simp [marshalOne, hs, ha] at h

theorem marshalArgs_ok_of_conform (ctx : Nat) (pairs : List (String × ArgType))
    (kwargs : List (String × Value))
    (h : ∀ p ∈ pairs, conforms ctx kwargs p = true) :
    ∃ l, marshalArgs ctx pairs kwargs = .ok l := by
  induction pairs with
  | nil => exact ⟨[], rfl⟩
  | cons q rest ih =>
    obtain ⟨nn, tt⟩ := q
    have hc := h (nn, tt) (List.mem_cons_self _ _)
    cases hlook : kwargs.lookup nn with
    | none => simp [conforms, hlook] at hc
    | some vv =>
      simp only [conforms, hlook] at hc
      obtain ⟨x, hx⟩ := marshalOne_ok_of_matches hc
      obtain ⟨tail, htail⟩ := ih (fun q hq => h q (List.mem_cons_of_mem _ hq))
      exact ⟨x :: tail, by
        simp [marshalArgs, hlook, hx, htail, bind_ok_reduce]⟩

theorem marshalArgs_ok_conform {ctx : Nat} {pairs : List (String × ArgType)}
    {kwargs : List (String × Value)} {l : List DevArg}
    (h : marshalArgs ctx pairs kwargs = .ok l) :
    ∀ p ∈ pairs, conforms ctx kwargs p = true := by
  induction pairs generalizing l with
  | nil => intro p hp; simp at hp
  | cons q rest ih =>
    obtain ⟨nn, tt⟩ := q
    intro p hp
    unfold marshalArgs at h
    cases hlook : kwargs.lookup nn with
    | none => simp only [hlook] at h; simp at h
    | some vv =>
      simp only [hlook] at h
      cases hx : marshalOne ctx tt vv with
      | error e => rw [hx, bind_err_reduce] at h; simp at h
      | ok x =>
        rw [hx, bind_ok_reduce] at h
        cases htail : marshalArgs ctx rest kwargs with
        | error e => rw [htail, bind_err_reduce] at h; simp at h
        | ok tail =>
          rcases List.mem_cons.1 hp with hpe | hpr
          · subst hpe
            simp [conforms, hlook, marshalOne_ok_matches hx]
          · exact ih htail p hpr

theorem marshalArgs_err_cases {ctx : Nat} {pairs : List (String × ArgType)}
    {kwargs : List (String × Value)} {e : Err}
    (h : marshalArgs ctx pairs kwargs = .error e) :
    e = .TypeMismatchError ∨
      (∃ nn, e = .KeyError nn ∧ nn ∈ pairs.map Prod.fst ∧ kwargs.lookup nn = none) ∨
      (e = .ValueError ∧ ∃ p ∈ pairs, ¬(p.2.kind = "scalar" ∨ p.2.kind = "array")) := by
  induction pairs with
  | nil => simp [marshalArgs] at h
  | cons q rest ih =>
    obtain ⟨nn, tt⟩ := q
    unfold marshalArgs at h
    cases hlook : kwargs.lookup nn with
    | none =>
      simp only [hlook] at h
      injection h with h
      exact Or.inr (Or.inl ⟨nn, h.symm ▸ rfl, by simp, hlook⟩)
    | some vv =>
      simp only [hlook] at h
      cases hx : marshalOne ctx tt vv with
      | error e1 =>
        rw [hx, bind_err_reduce] at h
        injection h with h
        subst h
        rcases marshalOne_err_cases hx with h1 | h1
        · exact Or.inl h1
        · exact Or.inr (Or.inr ⟨h1.1, (nn, tt), List.mem_cons_self _ _, h1.2⟩)
      | ok x =>
        rw [hx, bind_ok_reduce] at h
        cases htail : marshalArgs ctx rest kwargs with
        | error e2 =>
          rw [htail, bind_err_reduce] at h
          injection h with h
          subst h
          rcases ih htail with h1 | h1 | h1
          · exact Or.inl h1
          · obtain ⟨nm, he, hm, hl⟩ := h1
            exact Or.inr (Or.inl ⟨nm, he, by simp [hm], hl⟩)
          · obtain ⟨he, p, hp, hk⟩ := h1
            exact Or.inr (Or.inr ⟨he, p, List.mem_cons_of_mem _ hp, hk⟩)
        | ok tail => rw [htail, bind_ok_reduce] at h; simp at h

theorem marshalArgs_scalar_mem {ctx : Nat} {pairs : List (String × ArgType)}
    {kwargs : List (String × Value)} {l : List DevArg}
    (hok : marshalArgs ctx pairs kwargs = .ok l)
    {nn : String} {tt : ArgType} {v : Int}
    (hp : (nn, tt) ∈ pairs) (hkind : tt.kind = "scalar")
    (hv : kwargs.lookup nn = some (.scalar v)) :
    DevArg.scalarArg tt.dtype (tt.dtype.coerce v) ∈ l := by
  induction pairs generalizing l with
  | nil => simp at hp
  | cons q rest ih =>
    obtain ⟨nn0, tt0⟩ := q
    unfold marshalArgs at hok
    cases hlook : kwargs.lookup nn0 with
    | none => simp only [hlook] at hok; simp at hok
    | some vv =>
      simp only [hlook] at hok
      cases hx : marshalOne ctx tt0 vv with
      | error e => rw [hx, bind_err_reduce] at hok; simp at hok
      | ok x =>
        rw [hx, bind_ok_reduce] at hok
        cases htail : marshalArgs ctx rest kwargs with
        | error e => rw [htail, bind_err_reduce] at hok; simp at hok
        | ok tail =>
          rw [htail, bind_ok_reduce] at hok
          injection hok with hok
          subst hok
          rcases List.mem_cons.1 hp with hpe | hpr
          · have h1 : nn = nn0 := congrArg Prod.fst hpe
            have h2 : tt = tt0 := congrArg Prod.snd hpe
            subst h1
            subst h2
            have hvv : vv = .scalar v := Option.some.inj (hlook.symm.trans hv)
            subst hvv
            rw [marshalOne_scalar ctx v hkind] at hx
            injection hx with hx
            subst hx
            exact List.mem_cons_self _ _
          · exact List.mem_cons_of_mem _ (ih htail hpr)

theorem call_ok_elim {ker : XfPyopenclKernel} {kwargs : List (String × Value)}
    {ev : LaunchEvent} (h : ker.call kwargs = .ok ev) :
    kwargs.length = ker.num_args ∧
      marshalArgs ker.pyopencl_kernel.context (ker.arg_names.zip ker.arg_types) kwargs
        = .ok ev.args ∧
      kwargs.lookup ker.num_threads_from_arg = some ev.global_size ∧
      ev.queue = ker.command_queue ∧ ev.waited = ker.wait_on_call := by
  unfold XfPyopenclKernel.call at h
  split at h
  next hlen =>
    cases hm : marshalArgs ker.pyopencl_kernel.context
        (ker.arg_names.zip ker.arg_types) kwargs with
    | error e => rw [hm, bind_err_reduce] at h; simp at h
    | ok args =>
      rw [hm, bind_ok_reduce] at h
      cases hnt : kwargs.lookup ker.num_threads_from_arg with
      | none => simp only [hnt] at h; simp at h
      | some nt =>
        simp only [hnt] at h
        injection h with h
        subst h
        exact ⟨hlen, rfl, rfl, rfl, rfl⟩
  next => simp at h

theorem call_arity_of_len {ker : XfPyopenclKernel} {kwargs : List (String × Value)}
    (h : ¬(kwargs.length = ker.num_args)) :
    ker.call kwargs = .error .ArityError := by
  unfold XfPyopenclKernel.call
  split
  next hlen => exact absurd hlen h
  next => rfl

theorem call_err_of_marshal_err {ker : XfPyopenclKernel}
    {kwargs : List (String × Value)} {e : Err}
    (hlen : kwargs.length = ker.num_args)
    (hm : marshalArgs ker.pyopencl_kernel.context
      (ker.arg_names.zip ker.arg_types) kwargs = .error e) :
    ker.call kwargs = .error e := by
  unfold XfPyopenclKernel.call
  split
  next => rw [hm, bind_err_reduce]
  next hlen2 => exact absurd hlen hlen2

theorem call_ne_arity_of_len {ker : XfPyopenclKernel}
    {kwargs : List (String × Value)} (hlen : kwargs.length = ker.num_args) :
    ker.call kwargs ≠ .error .ArityError := by
  intro h
  unfold XfPyopenclKernel.call at h
  split at h
  next =>
    cases hm : marshalArgs ker.pyopencl_kernel.context
        (ker.arg_names.zip ker.arg_types) kwargs with
    | error e =>
      rw [hm, bind_err_reduce] at h
      injection h with h
      subst h
      rcases marshalArgs_err_cases hm with h1 | h1 | h1
      · simp at h1
      · obtain ⟨nm, he, _, _⟩ := h1
        simp at he
      · simp at h1
    | ok args =>
      rw [hm, bind_ok_reduce] at h
      cases hnt : kwargs.lookup ker.num_threads_from_arg with
      | none => simp only [hnt] at h; simp at h
      | some nt => simp only [hnt] at h; simp at h
  next hlen2 => exact absurd hlen hlen2

theorem le_foldl_max (x : Int) (xs : List Int) :
    ∀ y ∈ x :: xs, y ≤ xs.foldl max x := by
  induction xs generalizing x with
  | nil =>
    intro y hy
    simp at hy
    simp [hy]
  | cons z zs ih =>
    intro y hy
    have hstep : (z :: zs).foldl max x = zs.foldl max (max x z) := rfl
    rw [hstep]
    rcases List.mem_cons.1 hy with hx | hy2
    · subst hx
      exact le_trans (le_max_left y z) (ih (max y z) _ (List.mem_cons_self _ _))
    · rcases List.mem_cons.1 hy2 with hz | hy3
      · subst hz
        exact le_trans (le_max_right x y) (ih (max x y) _ (List.mem_cons_self _ _))
      · exact ih (max x z) y (List.mem_cons_of_mem _ hy3)

theorem pyMax_spec {axes : List Int} {ii : Int} (h : ii ∈ axes) :
    ∃ m, pyMax axes = .ok m ∧ ii ≤ m := by
  cases axes with
  | nil => simp at h
  | cons x xs => exact ⟨xs.foldl max x, rfl, le_foldl_max x xs ii h⟩

theorem fftInit_err_of_big_axis {shape : List Nat} {axes : List Int} {w : Bool}
    (h : ∃ ii ∈ axes, (shape.length : Int) ≤ ii) :
    fftInit shape axes w = .error .UnsupportedShape := by
  obtain ⟨ii, hm, hge⟩ := h
  obtain ⟨m, hmax, hle⟩ := pyMax_spec hm
  unfold fftInit
  rw [hmax, bind_ok_reduce]
  have hngt : ¬((shape.length : Int) > m) := by omega
  simp [hngt]

theorem addKernelsOne_err_of_invalid {queue : CommandQueue} {prg : Program}
    {nn : String} {kd : KernelDescription} {kk : PyKernel}
    (hlk : prg.kernels.lookup nn = some kk)
    (hviol : kd.args.length ≠ kk.num_args ∨
      kd.num_threads_from_arg ∉ kd.args.map Prod.snd) :
    ∃ e, addKernelsOne queue prg nn kd = .error e := by
  unfold addKernelsOne
  simp only [hlk]
  cases hargs : kd.args with
  | nil =>
    refine ⟨.ValueError, ?_⟩
    simp only [hargs]
  | cons a rest =>
    rw [hargs] at hviol
    refine ⟨.DescriptorMismatch, ?_⟩
    simp only [hargs]
    apply make_err_of_invalid
    rintro ⟨h1, h2, h3⟩
    rcases hviol with hv | hv
    · rw [List.length_map] at h2
      exact hv h2
    · exact hv h3

theorem addKernels_err_of_mem {queue : CommandQueue} {prg : Program}
    {descs : List (String × KernelDescription)} {nn : String}
    {kd : KernelDescription} (hmem : (nn, kd) ∈ descs)
    (hone : ∃ e, addKernelsOne queue prg nn kd = .error e) :
    ∃ e, addKernels queue prg descs = .error e := by
  induction descs with
  | nil => simp at hmem
  | cons q rest ih =>
    obtain ⟨nn0, kd0⟩ := q
    unfold addKernels
    cases hk : addKernelsOne queue prg nn0 kd0 with
    | error e => exact ⟨e, by rw [bind_err_reduce]⟩
    | ok ker =>
      rcases List.mem_cons.1 hmem with hpe | hpr
      · obtain ⟨e, he⟩ := hone
        have h1 : nn = nn0 := congrArg Prod.fst hpe
        have h2 : kd = kd0 := congrArg Prod.snd hpe
        rw [h1, h2, hk] at he
        simp at he
      · obtain ⟨e2, he2⟩ := ih hpr
        refine ⟨e2, ?_⟩
        rw [bind_ok_reduce, he2, bind_err_reduce]

theorem exists_zip_pair {α β : Type} {l1 : List α} {l2 : List β} {a : α}
    (h : a ∈ l1) (hlen : l1.length = l2.length) : ∃ b, (a, b) ∈ l1.zip l2 := by
  obtain ⟨i, hi, hget⟩ := List.mem_iff_getElem.1 h
  have hi2 : i < l2.length := by omega
  have hiz : i < (l1.zip l2).length := by
    rw [List.length_zip]
    omega
  refine ⟨l2[i], ?_⟩
  have hzg : (l1.zip l2)[i] = (l1[i], l2[i]) := List.getElem_zip
  have hval : (l1.zip l2)[i] = (a, l2[i]) := by rw [hzg, hget]
  rw [← hval]
  exact List.getElem_mem hiz

/-! Claim theorems. -/

/-- Claim C8: transferring a host array to device memory and back
(`nparray_from_platform_mem(nparray_to_platform_mem(X))`) yields an array
element-wise equal to `X`, with identical shape and element type. -/
theorem C8_transfer_roundtrip (p : XfPyopenclPlatform) (arr : NpArray) :
    p.nparray_from_platform_mem (p.nparray_to_platform_mem arr) = arr := by
  cases arr
  simp [XfPyopenclPlatform.nparray_to_platform_mem,
    XfPyopenclPlatform.nparray_from_platform_mem]

/-- Claim C10: attribute access on the platform's kernel mapping for a name
not present in the mapping returns `None` (here `none`) rather than raising. -/
theorem C10_missing_kernel_none (d : MinimalDotDict) (name : String)
    (h : name ∉ d.map Prod.fst) :
    d.getattr name = none :=
  lookup_eq_none_of_not_mem_keys h

/-- Witness for C10: the name `foo` is absent from a one-kernel mapping and
attribute access on it yields `none`. -/
theorem C10_missing_kernel_none_witness :
    ("foo" ∉ [("my_mul", exKer)].map Prod.fst) ∧
    MinimalDotDict.getattr [("my_mul", exKer)] "foo" = none :=
  ⟨by decide, C10_missing_kernel_none [("my_mul", exKer)] "foo" (by decide)⟩

/-- Claim C9: `XfPyopenclKernel` construction succeeds exactly when the
argument-name list length, the argument-type list length and the compiled
kernel's parameter count agree and the launch-width name occurs among the
argument names; it fails with `DescriptorMismatch` otherwise; and
registration through `add_kernels` rejects (errors on) any descriptor
violating either condition. -/
theorem C9_descriptor_validation (pk : PyKernel) (names : List String)
    (types : List ArgType) (nt : String) (q : CommandQueue) (w : Bool)
    (queue : CommandQueue) (prg : Program)
    (descs : List (String × KernelDescription)) (nn : String)
    (kd : KernelDescription) (kk : PyKernel)
    (hmem : (nn, kd) ∈ descs) (hlk : prg.kernels.lookup nn = some kk)
    (hviol : kd.args.length ≠ kk.num_args ∨
      kd.num_threads_from_arg ∉ kd.args.map Prod.snd) :
    ((∃ ker, XfPyopenclKernel.make pk names types nt q w = .ok ker) ↔
      (names.length = types.length ∧ types.length = pk.num_args ∧ nt ∈ names)) ∧
    (¬(names.length = types.length ∧ types.length = pk.num_args ∧ nt ∈ names) →
      XfPyopenclKernel.make pk names types nt q w = .error .DescriptorMismatch) ∧
    (∃ e, addKernels queue prg descs = .error e) := by
  refine ⟨⟨?_, ?_⟩, ?_, ?_⟩
  · rintro ⟨ker, hker⟩
    obtain ⟨h1, h2, h3, _⟩ := make_ok_elim hker
    exact ⟨h1, h2, h3⟩
  · rintro ⟨h1, h2, h3⟩
    refine ⟨⟨pk, names, types, nt, q, w⟩, ?_⟩
    unfold XfPyopenclKernel.make
    rw [if_pos ⟨h1, h2⟩, if_pos h3]
  · exact make_err_of_invalid pk names types nt q w
  · exact addKernels_err_of_mem hmem (addKernelsOne_err_of_invalid hlk hviol)

/-- Witness for C9: the one-argument description `exBadKd` disagrees with
the three-parameter compiled kernel `exPk3`, and registration errors. -/
theorem C9_descriptor_validation_witness :
    (("bad", exBadKd) ∈ [("bad", exBadKd)] ∧
     exPrg.kernels.lookup "bad" = some exPk3 ∧
     (exBadKd.args.length ≠ exPk3.num_args ∨
      exBadKd.num_threads_from_arg ∉ exBadKd.args.map Prod.snd)) ∧
    (∃ e, addKernels exQueue exPrg [("bad", exBadKd)] = .error e) :=
  ⟨⟨by decide, rfl, by decide⟩,
   (C9_descriptor_validation exPk ["n", "x"] exTypes "n" exQueue true exQueue
      exPrg [("bad", exBadKd)] "bad" exBadKd exPk3 (by decide) rfl
      (by decide)).2.2⟩

/-- Claim C6 (the code violates it): the non-last selected axis length
268435457 = 2 ^ 28 + 1 is not a power of two, so the claim — and the
assertion's own message in `XfPyopenclFFT.__init__` — requires plan creation
to fail with `UnsupportedShape`; but the quantity the source actually
compares, the fractional part of `np.log(nn)/np.log(2)`, equal here to
`Real.log 268435457 / Real.log 2 - 28`, is nonnegative and at most 1e-8,
`np.isclose`'s absolute tolerance (in exact arithmetic, with margin near a
factor of two, far beyond float64 rounding), so the float test accepts the
length and the assert raises nothing at plan creation. -/
theorem C6_pow2_tolerance_bug :
    isPow2 268435457 = false ∧
    0 ≤ Real.log 268435457 / Real.log 2 - 28 ∧
    Real.log 268435457 / Real.log 2 - 28 ≤ 1 / 10 ^ 8 := by
  have hlog2 : (0 : ℝ) < Real.log 2 := Real.log_pos (by norm_num)
  refine ⟨?_, ?_, ?_⟩
  · unfold isPow2
    rw [List.any_eq_false]
    intro k _ hk
    simp only [beq_iff_eq] at hk
    rcases lt_trichotomy k 28 with h | h | h
    · have hle : (2 : ℕ) ^ k ≤ 2 ^ 27 := pow_le_pow_right₀ (by norm_num) (by omega)
      have h27 : (2 : ℕ) ^ 27 = 134217728 := by norm_num
      omega
    · subst h
      have h28 : (2 : ℕ) ^ 28 = 268435456 := by norm_num
      omega
    · have hle : (2 : ℕ) ^ 29 ≤ 2 ^ k := pow_le_pow_right₀ (by norm_num) (by omega)
      have h29 : (2 : ℕ) ^ 29 = 536870912 := by norm_num
      omega
  · rw [sub_nonneg, le_div_iff₀ hlog2]
    have hpow : (28 : ℝ) * Real.log 2 = Real.log (2 ^ 28) := by
      rw [Real.log_pow]
      norm_num
    rw [hpow]
    exact (Real.log_le_log_iff (by norm_num) (by norm_num)).2 (by norm_num)
  · rw [sub_le_iff_le_add, div_le_iff₀ hlog2]
    rw [Real.log_le_iff_le_exp (by norm_num)]
    have hsplit : (1 / 10 ^ 8 + 28 : ℝ) * Real.log 2
        = (28 : ℕ) * Real.log 2 + 1 / 10 ^ 8 * Real.log 2 := by
      push_cast
      ring
    rw [hsplit, Real.exp_add, Real.exp_nat_mul, Real.exp_log (by norm_num)]
    have h228 : ((2 : ℝ) ^ 28) = 268435456 := by norm_num
    rw [h228]
    have hexp : 1 / 10 ^ 8 * Real.log 2 + 1
        ≤ Real.exp (1 / 10 ^ 8 * Real.log 2) :=
      Real.add_one_le_exp _
    have hmul := mul_le_mul_of_nonneg_left hexp
      (by norm_num : (0 : ℝ) ≤ 268435456)
    have hl2 := Real.log_two_gt_d9
    linarith

/-- Counterexample to claim C7: the axes entry `-5` is not a valid dimension
index of the 2-dimensional shape `[4, 4]` (indexing the shape with it would
raise `IndexError`), yet plan creation succeeds instead of failing with
`UnsupportedShape`, because the validation only compares `max(axes)` with
the number of dimensions. -/
theorem C7_counterexample :
    fftInit [4, 4] [-5] true = .ok ⟨[4, 4], [-5], true⟩ ∧
    pyTupleIndex [4, 4] (-5) = .error .IndexError := by
  constructor
  · rfl
  · rfl

/-- Claim C7 (amended): the axes validation of `plan_FFT` checks only the
upper bound `max(axes) < len(data.shape)`: any axes sequence containing an
entry at least the number of dimensions fails with `UnsupportedShape`;
invalid negative entries are not caught by this validation. -/
theorem C7_axes_upper_bound (p : XfPyopenclPlatform) (data : DevArray)
    (axes : List Int) (w : Bool)
    (h : ∃ ii ∈ axes, (data.shape.length : Int) ≤ ii) :
    p.plan_FFT data axes w = .error .UnsupportedShape :=
  fftInit_err_of_big_axis h

/-- Witness for the amended C7: axis 7 on a 2-dimensional array is rejected
with `UnsupportedShape`. -/
theorem C7_axes_upper_bound_witness :
    (∃ ii ∈ ([7] : List Int), ((2 : Nat) : Int) ≤ ii) ∧
    exPlatform.plan_FFT ⟨0, [4, 4], .float64, [0], 0⟩ [7] true
      = .error .UnsupportedShape :=
  ⟨⟨7, by decide, by decide⟩,
   C7_axes_upper_bound exPlatform ⟨0, [4, 4], .float64, [0], 0⟩ [7] true
     ⟨7, by decide, by decide⟩⟩

/-- Claim C1: for a kernel handle built from a valid descriptor, a call
supplying exactly the declared argument names with values conforming to the
declared kinds succeeds, and the global work size passed to the device
equals the value supplied for the argument named by `num_threads_from_arg`. -/
theorem C1_launch_width (pk : PyKernel) (names : List String)
    (types : List ArgType) (nt : String) (q : CommandQueue) (w : Bool)
    (ker : XfPyopenclKernel) (kwargs : List (String × Value))
    (hmk : XfPyopenclKernel.make pk names types nt q w = .ok ker)
    (hperm : (kwargs.map Prod.fst).Perm ker.arg_names)
    (hconf : ∀ p ∈ ker.arg_names.zip ker.arg_types,
      conforms ker.pyopencl_kernel.context kwargs p = true) :
    ∃ ev vv, ker.call kwargs = .ok ev ∧
      kwargs.lookup ker.num_threads_from_arg = some vv ∧
      ev.global_size = vv := by
  obtain ⟨hlen1, hlen2, hntm, hker⟩ := make_ok_elim hmk
  have hlen : kwargs.length = ker.num_args := by
    have hpl := hperm.length_eq
    rw [List.length_map] at hpl
    exact hpl
  obtain ⟨l, hl⟩ := marshalArgs_ok_of_conform ker.pyopencl_kernel.context
    (ker.arg_names.zip ker.arg_types) kwargs hconf
  have hntk : ker.num_threads_from_arg ∈ ker.arg_names := by
    rw [hker]
    exact hntm
  have hntkeys : ker.num_threads_from_arg ∈ kwargs.map Prod.fst :=
    hperm.mem_iff.2 hntk
  obtain ⟨vv, hvv⟩ := lookup_isSome_of_mem_keys hntkeys
  refine ⟨⟨ker.command_queue, vv, l, ker.wait_on_call⟩, vv, ?_, hvv, rfl⟩
  unfold XfPyopenclKernel.call
  rw [if_pos hlen, hl, bind_ok_reduce]
  simp only [hvv]

/-- Witness for C1: calling the example kernel with `n = 3` and a resident
device array succeeds with global size `3`, the value supplied for `n`. -/
theorem C1_launch_width_witness :
    (XfPyopenclKernel.make exPk ["n", "x"] exTypes "n" exQueue true = .ok exKer ∧
     ([("n", Value.scalar 3), ("x", Value.devArray exArr)].map Prod.fst).Perm
       exKer.arg_names) ∧
    (∃ ev vv,
      exKer.call [("n", Value.scalar 3), ("x", Value.devArray exArr)] = .ok ev ∧
      [("n", Value.scalar 3), ("x", Value.devArray exArr)].lookup
        exKer.num_threads_from_arg = some vv ∧
      ev.global_size = vv) :=
  ⟨⟨rfl, by decide⟩,
   C1_launch_width exPk ["n", "x"] exTypes "n" exQueue true exKer
     [("n", Value.scalar 3), ("x", Value.devArray exArr)] rfl (by decide)
     (by decide)⟩

/-- Counterexample to claim C2: a call on a two-argument kernel supplying a
same-size argument-name set with `c` substituted for the declared name `b`
does not fail with `ArityError`: the arity assertion compares only the
count, which matches, and the call then fails looking up the missing
declared name — Python's `KeyError`, a different error. -/
theorem C2_counterexample :
    XfPyopenclKernel.make exPk ["a", "b"]
        [⟨"scalar", .int32⟩, ⟨"scalar", .int32⟩] "a" exQueue true
      = .ok exKerAB ∧
    exKerAB.call [("a", .scalar 1), ("c", .scalar 2)]
      = .error (.KeyError "b") ∧
    Err.KeyError "b" ≠ Err.ArityError :=
  ⟨rfl, rfl, by simp⟩

/-- Claim C2 (amended): a call whose supplied argument-name count differs
from the declared count fails with `ArityError`; a call supplying the right
count but missing a declared name (in particular a same-size set with a
wrong name substituted) still fails, but never with `ArityError` —
`ArityError` occurs exactly when the count mismatches. -/
theorem C2_arity (pk : PyKernel) (names : List String) (types : List ArgType)
    (nt : String) (q : CommandQueue) (w : Bool) (ker : XfPyopenclKernel)
    (kwargs : List (String × Value))
    (hmk : XfPyopenclKernel.make pk names types nt q w = .ok ker)
    (hbad : kwargs.length ≠ ker.num_args ∨
      ∃ nn ∈ ker.arg_names, kwargs.lookup nn = none) :
    (∃ e, ker.call kwargs = .error e) ∧
    (ker.call kwargs = .error .ArityError ↔ kwargs.length ≠ ker.num_args) := by
  obtain ⟨hlen1, hlen2, hntm, hker⟩ := make_ok_elim hmk
  have hlents : ker.arg_names.length = ker.arg_types.length := by
    rw [hker]
    exact hlen1
  constructor
  · by_cases hlen : kwargs.length = ker.num_args
    · rcases hbad with hb | hb
      · exact absurd hlen hb
      · obtain ⟨nn, hnnmem, hnone⟩ := hb
        obtain ⟨tt, hpair⟩ := exists_zip_pair hnnmem hlents
        cases hm : marshalArgs ker.pyopencl_kernel.context
            (ker.arg_names.zip ker.arg_types) kwargs with
        | ok l =>
          have hcf := marshalArgs_ok_conform hm (nn, tt) hpair
          simp [conforms, hnone] at hcf
        | error e => exact ⟨e, call_err_of_marshal_err hlen hm⟩
    · exact ⟨.ArityError, call_arity_of_len hlen⟩
  · constructor
    · intro h hlen
      exact call_ne_arity_of_len hlen h
    · exact call_arity_of_len

/-- Witness for the amended C2: the same-size wrong-name call fails, and
fails with `ArityError` exactly when the count would mismatch (here it does
not, so the failure is a different error). -/
theorem C2_arity_witness :
    (XfPyopenclKernel.make exPk ["a", "b"]
        [⟨"scalar", .int32⟩, ⟨"scalar", .int32⟩] "a" exQueue true
      = .ok exKerAB ∧
     (∃ nn ∈ exKerAB.arg_names,
       [("a", Value.scalar 1), ("c", Value.scalar 2)].lookup nn = none)) ∧
    ((∃ e, exKerAB.call [("a", Value.scalar 1), ("c", Value.scalar 2)]
        = .error e) ∧
     (exKerAB.call [("a", Value.scalar 1), ("c", Value.scalar 2)]
        = .error .ArityError ↔
      [("a", Value.scalar 1), ("c", Value.scalar 2)].length
        ≠ exKerAB.num_args)) :=
  ⟨⟨rfl, by decide⟩,
   C2_arity exPk ["a", "b"] [⟨"scalar", .int32⟩, ⟨"scalar", .int32⟩] "a"
     exQueue true exKerAB [("a", Value.scalar 1), ("c", Value.scalar 2)] rfl
     (Or.inr (by decide))⟩

/-- Claim C3: within a call supplying all declared names, a declared scalar
argument given a non-scalar value, a declared array argument given a
host-resident array, and a declared array argument given a device array of
a different context all fail with `TypeMismatchError`; and on success every
supplied scalar reaches the device coerced to the declared numeric type. -/
theorem C3_kind_checks (pk : PyKernel) (names : List String)
    (types : List ArgType) (nt : String) (q : CommandQueue) (w : Bool)
    (ker : XfPyopenclKernel) (kwargs : List (String × Value))
    (hmk : XfPyopenclKernel.make pk names types nt q w = .ok ker)
    (hlen : kwargs.length = ker.num_args)
    (hkeys : ∀ p ∈ ker.arg_names.zip ker.arg_types,
      (kwargs.lookup p.1).isSome = true)
    (hkinds : ∀ p ∈ ker.arg_names.zip ker.arg_types,
      p.2.kind = "scalar" ∨ p.2.kind = "array") :
    (∀ ev, ker.call kwargs = .ok ev →
      ∀ p ∈ ker.arg_names.zip ker.arg_types, p.2.kind = "scalar" →
        ∀ v, kwargs.lookup p.1 = some (.scalar v) →
          DevArg.scalarArg p.2.dtype (p.2.dtype.coerce v) ∈ ev.args) ∧
    ((∃ p ∈ ker.arg_names.zip ker.arg_types, ∃ vv,
        kwargs.lookup p.1 = some vv ∧
        matchesDecl ker.pyopencl_kernel.context p.2 vv = false) →
      ker.call kwargs = .error .TypeMismatchError) := by
  constructor
  · intro ev hcall p hp hkind v hv
    obtain ⟨nn, tt⟩ := p
    obtain ⟨_, hm, _, _, _⟩ := call_ok_elim hcall
    exact marshalArgs_scalar_mem hm hp hkind hv
  · rintro ⟨p, hp, vv, hlv, hmb⟩
    cases hm : marshalArgs ker.pyopencl_kernel.context
        (ker.arg_names.zip ker.arg_types) kwargs with
    | ok l =>
      have hcf := marshalArgs_ok_conform hm p hp
      simp only [conforms, hlv] at hcf
      rw [hcf] at hmb
      exact absurd hmb (by decide)
    | error e =>
      rcases marshalArgs_err_cases hm with h1 | h1 | h1
      · rw [← h1]
        exact call_err_of_marshal_err hlen hm
      · exfalso
        obtain ⟨nm, he, hmm, hlnone⟩ := h1
        obtain ⟨p2, hp2, hfst⟩ := List.mem_map.1 hmm
        have hk := hkeys p2 hp2
        rw [hfst, hlnone] at hk
        simp at hk
      · exfalso
        obtain ⟨he, p2, hp2, hnk⟩ := h1
        exact hnk (hkinds p2 hp2)

/-- Witness for C3: supplying a host-resident numpy array for the declared
array argument `x` makes the call fail with `TypeMismatchError`. -/
theorem C3_kind_checks_witness :
    (XfPyopenclKernel.make exPk ["n", "x"] exTypes "n" exQueue true = .ok exKer ∧
     [("n", Value.scalar 2),
       ("x", Value.hostArray ⟨[3], .float64, [1, 2, 3]⟩)].length
       = exKer.num_args) ∧
    ((∃ p ∈ exKer.arg_names.zip exKer.arg_types, ∃ vv,
        [("n", Value.scalar 2),
          ("x", Value.hostArray ⟨[3], .float64, [1, 2, 3]⟩)].lookup p.1
          = some vv ∧
        matchesDecl exKer.pyopencl_kernel.context p.2 vv = false) →
      exKer.call [("n", Value.scalar 2),
        ("x", Value.hostArray ⟨[3], .float64, [1, 2, 3]⟩)]
        = .error .TypeMismatchError) :=
  ⟨⟨rfl, rfl⟩,
   (C3_kind_checks exPk ["n", "x"] exTypes "n" exQueue true exKer
      [("n", Value.scalar 2), ("x", Value.hostArray ⟨[3], .float64, [1, 2, 3]⟩)]
      rfl rfl (by decide) (by decide)).2⟩

end XfPyOpenCL
